import Mathlib

/-!
Verification development for the KubeTestLauncher repository.

The repository orchestrates one-shot test runs on Kubernetes:
`RunnerService.run_tests` (src/runner_service.py) stages code and a test
configuration into a ConfigMap, launches a Job, waits for its completion,
reclaims the ConfigMap, and interprets the captured logs into a verdict
dict.  `K8sClient` (src/k8s_client.py) is the backend adapter with a
deterministic mock mode.  `validate_test_config` (src/utils.py) validates
the per-language test configuration.

The embedding below models:
  * JSON values and Python's `json.loads` / `json.dumps` (the subset of
    behaviour the repository exercises: objects, arrays, strings with
    escapes, integer/decimal number lexemes kept as text, booleans, null;
    leading/trailing whitespace as accepted by `json.loads`);
  * the backend interface used by `run_tests` as a record of fallible
    operations (`Except` models a raised exception), together with an
    event trace recording every backend call `run_tests` makes;
  * `run_tests` itself, with the nondeterministic `uuid` short id passed
    in as a parameter, and the code-file read modelled as an
    `Except String String` input;
  * the mock-mode (`mock_mode = True`) branches of `K8sClient`, whose
    per-call uuid suffixes are likewise passed in as parameters;
  * the live polling loop of `wait_for_job_completion`, with the sequence
    of status observations made before the deadline given as a list.
-/

/-- JSON values.  Numbers keep their source lexeme (the repository never
computes with them), objects keep key order with Python-dict semantics
(duplicate keys overwrite in place, see `insertKV`). -/
inductive Json where
  | null : Json
  | bool (b : Bool) : Json
  | num (lexeme : String) : Json
  | str (s : String) : Json
  | arr (elems : List Json) : Json
  | obj (kvs : List (String × Json)) : Json

/-- Insert a key/value pair with Python-dict semantics: an existing key
keeps its position and gets the new value, a new key is appended. -/
def insertKV (k : String) (v : Json) : List (String × Json) → List (String × Json)
  | [] => [(k, v)]
  | (k0, v0) :: rest => if k0 = k then (k0, v) :: rest else (k0, v0) :: insertKV k v rest

/-- Key lookup on a JSON value (Python `d[k]` / `k in d` on dicts). -/
def Json.lookupKey : Json → String → Option Json
  | .obj kvs, k => kvs.lookup k
  | _, _ => none

/-- The whitespace characters skipped by Python's `json` module. -/
def isJsonWs (c : Char) : Bool :=
  c = ' ' || c = '\t' || c = '\n' || c = '\r'

/-- Drop leading JSON whitespace. -/
def skipWs : List Char → List Char
  | [] => []
  | c :: cs => if isJsonWs c then skipWs cs else c :: cs

/-- The left brace character (x7b). -/
def lbraceC : Char := Char.ofNat 123

/-- The right brace character (x7d). -/
def rbraceC : Char := Char.ofNat 125

/-- Hexadecimal digit value, for string u-escapes. -/
def parseHexDigit (c : Char) : Option Nat :=
  if '0' ≤ c ∧ c ≤ '9' then some (c.toNat - '0'.toNat)
  else if 'a' ≤ c ∧ c ≤ 'f' then some (c.toNat - 'a'.toNat + 10)
  else if 'A' ≤ c ∧ c ≤ 'F' then some (c.toNat - 'A'.toNat + 10)
  else none

/-- Value of a four-hex-digit escape. -/
def hexQuad (h1 h2 h3 h4 : Char) : Option Nat :=
  (parseHexDigit h1).bind (fun a =>
    (parseHexDigit h2).bind (fun b =>
      (parseHexDigit h3).bind (fun c =>
        (parseHexDigit h4).map (fun d => a * 4096 + b * 256 + c * 16 + d))))

/-- Characters of a JSON string after the opening quote (strict mode:
raw control characters rejected, the escape set of RFC 8259), with the
remainder after the closing quote. -/
def parseStringChars : List Char → Option (List Char × List Char)
  | [] => none
  | '"' :: cs => some ([], cs)
  | '\\' :: '"' :: cs => (parseStringChars cs).map (fun p => ('"' :: p.1, p.2))
  | '\\' :: '\\' :: cs => (parseStringChars cs).map (fun p => ('\\' :: p.1, p.2))
  | '\\' :: '/' :: cs => (parseStringChars cs).map (fun p => ('/' :: p.1, p.2))
  | '\\' :: 'b' :: cs => (parseStringChars cs).map (fun p => ('\x08' :: p.1, p.2))
  | '\\' :: 'f' :: cs => (parseStringChars cs).map (fun p => ('\x0c' :: p.1, p.2))
  | '\\' :: 'n' :: cs => (parseStringChars cs).map (fun p => ('\n' :: p.1, p.2))
  | '\\' :: 'r' :: cs => (parseStringChars cs).map (fun p => ('\r' :: p.1, p.2))
  | '\\' :: 't' :: cs => (parseStringChars cs).map (fun p => ('\t' :: p.1, p.2))
  | '\\' :: 'u' :: h1 :: h2 :: h3 :: h4 :: cs =>
    (hexQuad h1 h2 h3 h4).bind (fun n =>
      (parseStringChars cs).map (fun p => (Char.ofNat n :: p.1, p.2)))
  | '\\' :: _ => none
  | c :: cs => if c.toNat < 32 then none else (parseStringChars cs).map (fun p => (c :: p.1, p.2))

/-- Body of a JSON string, after the opening quote. -/
def parseStringBody (cs : List Char) : Option (String × List Char) :=
  (parseStringChars cs).map (fun p => (String.mk p.1, p.2))

/-- Longest prefix of decimal digits, with the remainder. -/
def takeDigits : List Char → List Char × List Char
  | [] => ([], [])
  | c :: cs =>
    if c.isDigit then
      let p := takeDigits cs
      (c :: p.1, p.2)
    else ([], c :: cs)

/-- Integer part of a JSON number: `0`, or a nonzero digit followed by
digits (JSON forbids leading zeros). -/
def parseIntPart : List Char → Option (List Char × List Char)
  | [] => none
  | c :: cs =>
    if c = '0' then some ([c], cs)
    else if c.isDigit then
      let p := takeDigits cs
      some (c :: p.1, p.2)
    else none

/-- Optional fraction part `.digits` of a JSON number. -/
def parseFracPart : List Char → List Char × List Char
  | '.' :: cs =>
    match takeDigits cs with
    | ([], _) => ([], '.' :: cs)
    | (ds, r) => ('.' :: ds, r)
  | cs => ([], cs)

/-- Optional exponent part of a JSON number. -/
def parseExpPart : List Char → List Char × List Char
  | e :: cs =>
    if e = 'e' ∨ e = 'E' then
      match cs with
      | s :: cs2 =>
        if s = '+' ∨ s = '-' then
          match takeDigits cs2 with
          | ([], _) => ([], e :: cs)
          | (ds, r) => (e :: s :: ds, r)
        else
          match takeDigits cs with
          | ([], _) => ([], e :: cs)
          | (ds, r) => (e :: ds, r)
      | [] => ([], [e])
    else ([], e :: cs)
  | [] => ([], [])

/-- A JSON number token, kept as its lexeme. -/
def parseNumber (cs : List Char) : Option (Json × List Char) :=
  let sp : List Char × List Char :=
    match cs with
    | '-' :: r => (['-'], r)
    | _ => ([], cs)
  match parseIntPart sp.2 with
  | none => none
  | some (ip, cs2) =>
    let fp := parseFracPart cs2
    let ep := parseExpPart fp.2
    some (Json.num (String.mk (sp.1 ++ ip ++ fp.1 ++ ep.1)), ep.2)

mutual

/-- One JSON value (fuelled recursion; leading whitespace skipped),
modelling the acceptance behaviour of Python's `json.loads`. -/
def parseVal : Nat → List Char → Option (Json × List Char)
  | 0, _ => none
  | Nat.succ fuel, cs =>
    match skipWs cs with
    | [] => none
    | c :: cs1 =>
      if c = lbraceC then
        match skipWs cs1 with
        | c2 :: cs2 =>
          if c2 = rbraceC then some (Json.obj [], cs2)
          else parseObjItems fuel [] (c2 :: cs2)
        | [] => none
      else if c = '[' then
        match skipWs cs1 with
        | c2 :: cs2 =>
          if c2 = ']' then some (Json.arr [], cs2)
          else parseArrItems fuel [] (c2 :: cs2)
        | [] => none
      else if c = '"' then
        match parseStringBody cs1 with
        | some (s, r) => some (Json.str s, r)
        | none => none
      else if c = 't' then
        if "rue".data.isPrefixOf cs1 then some (Json.bool true, cs1.drop 3) else none
      else if c = 'f' then
        if "alse".data.isPrefixOf cs1 then some (Json.bool false, cs1.drop 4) else none
      else if c = 'n' then
        if "ull".data.isPrefixOf cs1 then some (Json.null, cs1.drop 3) else none
      else if c = '-' || c.isDigit then parseNumber (c :: cs1)
      else none

/-- Members of a JSON object, after the opening brace (nonempty case). -/
def parseObjItems : Nat → List (String × Json) → List Char → Option (Json × List Char)
  | 0, _, _ => none
  | Nat.succ fuel, acc, cs =>
    match skipWs cs with
    | '"' :: cs1 =>
      match parseStringBody cs1 with
      | none => none
      | some (k, cs2) =>
        match skipWs cs2 with
        | ':' :: cs3 =>
          match parseVal fuel cs3 with
          | none => none
          | some (v, cs4) =>
            match skipWs cs4 with
            | c5 :: cs5 =>
              if c5 = ',' then parseObjItems fuel (insertKV k v acc) cs5
              else if c5 = rbraceC then some (Json.obj (insertKV k v acc), cs5)
              else none
            | [] => none
        | _ => none
    | _ => none

/-- Elements of a JSON array, after the opening bracket (nonempty case). -/
def parseArrItems : Nat → List Json → List Char → Option (Json × List Char)
  | 0, _, _ => none
  | Nat.succ fuel, acc, cs =>
    match parseVal fuel cs with
    | none => none
    | some (v, cs1) =>
      match skipWs cs1 with
      | c2 :: cs2 =>
        if c2 = ',' then parseArrItems fuel (acc ++ [v]) cs2
        else if c2 = ']' then some (Json.arr (acc ++ [v]), cs2)
        else none
      | [] => none

end

/-- Model of Python's `json.loads`: one JSON document, with leading and
trailing whitespace tolerated; anything else after the document is an
error (`None`). -/
def json_loads (s : String) : Option Json :=
  match parseVal (s.data.length + 2) s.data with
  | some (v, rest) => if (skipWs rest).isEmpty then some v else none
  | none => none

example : json_loads "\x7b\"status\": \"pass\", \"tests\": [\x7b\"name\": \"test_hello_world\", \"status\": \"pass\"\x7d]\x7d" =
    some (Json.obj [("status", Json.str "pass"),
      ("tests", Json.arr [Json.obj [("name", Json.str "test_hello_world"), ("status", Json.str "pass")]])]) := rfl

example : json_loads "\x7b\"status\": \"pass\"\x7d \n" = some (Json.obj [("status", Json.str "pass")]) := rfl

example : json_loads "\x7b\"status\": \"pass\"\x7d x" = none := rfl

example : json_loads "\x7b\"a\": [1, -2.5e3, true, false, null]\x7d" =
    some (Json.obj [("a", Json.arr [Json.num "1", Json.num "-2.5e3", Json.bool true, Json.bool false, Json.null])]) := rfl

/-- Escape one character for JSON output (`json.dumps` default). -/
def escapeJsonChar (c : Char) : String :=
  if c = '"' then "\\\""
  else if c = '\\' then "\\\\"
  else if c = '\n' then "\\n"
  else if c = '\t' then "\\t"
  else if c = '\r' then "\\r"
  else String.singleton c

/-- Serialize one string literal for JSON output. -/
def dumpJsonString (s : String) : String :=
  "\"" ++ String.join (s.data.map escapeJsonChar) ++ "\""

mutual

/-- Model of Python's `json.dumps` with default separators, used by
`run_tests` to serialize the test configuration into the ConfigMap. -/
def json_dumps : Json → String
  | Json.null => "null"
  | Json.bool true => "true"
  | Json.bool false => "false"
  | Json.num lexeme => lexeme
  | Json.str s => dumpJsonString s
  | Json.arr elems => "[" ++ jsonDumpsElems elems ++ "]"
  | Json.obj kvs => "\x7b" ++ jsonDumpsMembers kvs ++ "\x7d"

/-- Array elements, comma separated. -/
def jsonDumpsElems : List Json → String
  | [] => ""
  | [x] => json_dumps x
  | x :: y :: xs => json_dumps x ++ ", " ++ jsonDumpsElems (y :: xs)

/-- Object members, comma separated. -/
def jsonDumpsMembers : List (String × Json) → String
  | [] => ""
  | [(k, v)] => dumpJsonString k ++ ": " ++ json_dumps v
  | (k, v) :: m :: rest => dumpJsonString k ++ ": " ++ json_dumps v ++ ", " ++ jsonDumpsMembers (m :: rest)

end

/-- Per-language settings (src/config.py, values of `SUPPORTED_LANGUAGES`). -/
structure LangConfig where
  image : String
  file_extension : String
  timeout : Nat
deriving Repr, DecidableEq

/-- The language registry of src/config.py: only `python` is registered
(the other entries are commented out in the source). -/
def SUPPORTED_LANGUAGES : List (String × LangConfig) :=
  [("python", { image := "exercism/python-test-runner:latest", file_extension := "py", timeout := 60 })]

/-- `SUPPORTED_LANGUAGES[language]`, only evaluated under the membership
guard of `run_tests`. -/
def langConfig (language : String) : LangConfig :=
  (SUPPORTED_LANGUAGES.lookup language).getD { image := "", file_extension := "", timeout := 0 }

/-- The embedded-result marker `run_tests` scans the logs for
(`logs.find` of the ten characters left-brace `"status":`). -/
def marker : List Char := "\x7b\"status\":".data

/-- Suffix of `l` starting at the first occurrence of `pat`
(Python `l[l.find(pat):]` when `find` succeeds, `none` when it returns -1). -/
def suffixFromMarker (pat : List Char) : List Char → Option (List Char)
  | [] => if pat.isEmpty then some [] else none
  | c :: cs => if pat.isPrefixOf (c :: cs) then some (c :: cs) else suffixFromMarker pat cs

/-- The verdict built by the outer `except` clause of `run_tests`
(status `error`, message embedding the exception text). -/
def errVerdict (e : String) : Json :=
  Json.obj [("status", Json.str "error"), ("message", Json.str ("Error running tests: " ++ e))]

/-- The verdict built when the embedded result fails to parse.  The
Python code embeds `str(e)` of the `json.JSONDecodeError`; the exact
library message text is abstracted away here, only the status and the
preserved raw output matter to the claims. -/
def parse_error_verdict (logs : String) : Json :=
  Json.obj [("status", Json.str "error"),
    ("message", Json.str "Error parsing test results"),
    ("raw_output", Json.str logs)]

/-- Lines 129-156 of src/runner_service.py: turn the `(success, logs)`
pair returned by `wait_for_job_completion` into the returned verdict. -/
def interpret_logs (success : Bool) (logs : String) : Json :=
  if success then
    match suffixFromMarker marker logs.data with
    | some suf =>
      match json_loads (String.mk suf) with
      | some v => v
      | none => parse_error_verdict logs
    | none =>
      Json.obj [("status", Json.str "pass"),
        ("message", Json.str "Tests passed but no structured output found"),
        ("raw_output", Json.str logs)]
  else
    Json.obj [("status", Json.str "fail"),
      ("message", Json.str "Test execution failed"),
      ("raw_output", Json.str logs)]

/-- The backend surface `run_tests` uses; `Except.error e` models the
method raising an exception with message `e`. -/
structure Backend where
  create_config_map : String → List (String × String) → Except String String
  create_job : String → String → List String → String → Nat → Except String String
  wait_for_job_completion : String → Except String (Bool × String)
  delete_config_map : String → Except String Unit

/-- One backend call made by `run_tests`, recorded in order. -/
inductive BEvent where
  | createConfigMap (name : String) (data : List (String × String))
  | createJob (name : String) (image : String) (command : List String)
      (configMapRef : String) (timeoutSeconds : Nat)
  | waitForJob (jobName : String)
  | deleteConfigMap (name : String)
deriving Repr, DecidableEq

/-- `f"{language}-test-{run_id}"`, the name prefix used for both the
ConfigMap and the Job of one run. -/
def resourceName (language run_id : String) : String :=
  language ++ "-test-" ++ run_id

/-- `f"solution.{file_extension}"`. -/
def codeFilename (language : String) : String :=
  "solution." ++ (langConfig language).file_extension

/-- The ConfigMap payload: the code file and the serialized test
configuration (lines 54-57 of src/runner_service.py). -/
def stagedData (language : String) (code_content : String) (test_config : Json) : List (String × String) :=
  [(codeFilename language, code_content),
   ("test_config.json", json_dumps test_config)]

/-- The test-runner shell command (lines 100-108 of src/runner_service.py). -/
def run_command (code_filename config_filename : String) : List String :=
  ["sh", "-c",
    "cd /mnt/exercise && cp " ++ code_filename ++ " /opt/test-runner/code/" ++ code_filename ++
    " && cp " ++ config_filename ++ " /opt/test-runner/config.json && cd /opt/test-runner && ./bin/run.sh /opt/test-runner/code /opt/test-runner/output"]

/-- The command for a given language's code filename. -/
def runCommandFor (language : String) : List String :=
  run_command (codeFilename language) "test_config.json"

/-- `RunnerService.run_tests` (src/runner_service.py lines 22-163).

Inputs: the backend, the language, the result of reading the code file
(`Except.error` models `open`/`read` raising), the parsed test
configuration, and the uuid-derived short run id.  Output: the Python
return value (`Except.error` models the uncaught `ValueError` for an
unsupported language, `Except.ok` a returned verdict dict), paired with
the trace of backend calls in order.  The `delete_config_map` call's own
outcome is discarded by the source (its exception is caught and only
logged), so only the event is recorded. -/
def run_tests (B : Backend) (language : String) (read_code : Except String String)
    (test_config : Json) (run_id : String) : Except String Json × List BEvent :=
  if (SUPPORTED_LANGUAGES.lookup language).isNone then
    (Except.error ("Unsupported language: " ++ language), [])
  else
    match read_code with
    | Except.error e => (Except.ok (errVerdict e), [])
    | Except.ok code_content =>
      match B.create_config_map (resourceName language run_id) (stagedData language code_content test_config) with
      | Except.error e =>
        (Except.ok (errVerdict e),
         [BEvent.createConfigMap (resourceName language run_id) (stagedData language code_content test_config)])
      | Except.ok config_map_name =>
        match B.create_job (resourceName language run_id) (langConfig language).image (runCommandFor language) config_map_name 120 with
        | Except.error e =>
          (Except.ok (errVerdict e),
           [BEvent.createConfigMap (resourceName language run_id) (stagedData language code_content test_config),
            BEvent.createJob (resourceName language run_id) (langConfig language).image (runCommandFor language) config_map_name 120])
        | Except.ok job_name =>
          match B.wait_for_job_completion job_name with
          | Except.error e =>
            (Except.ok (errVerdict e),
             [BEvent.createConfigMap (resourceName language run_id) (stagedData language code_content test_config),
              BEvent.createJob (resourceName language run_id) (langConfig language).image (runCommandFor language) config_map_name 120,
              BEvent.waitForJob job_name])
          | Except.ok (success, logs) =>
            (Except.ok (interpret_logs success logs),
             [BEvent.createConfigMap (resourceName language run_id) (stagedData language code_content test_config),
              BEvent.createJob (resourceName language run_id) (langConfig language).image (runCommandFor language) config_map_name 120,
              BEvent.waitForJob job_name,
              BEvent.deleteConfigMap config_map_name])

/-- True when the list contains a dash (Python `'-' in job_name`). -/
def containsDash : List Char → Bool
  | [] => false
  | c :: cs => c = '-' || containsDash cs

/-- Characters before the first dash (Python `job_name.split('-')[0]`). -/
def takeUntilDash : List Char → List Char
  | [] => []
  | c :: cs => if c = '-' then [] else c :: takeUntilDash cs

/-- Lines 172-173 of src/k8s_client.py: the language inferred from a job
name in mock mode. -/
def job_name_language (job_name : String) : String :=
  if containsDash job_name.data then String.mk (takeUntilDash job_name.data) else "unknown"

/-- The canned mock logs for `python` (line 177 of src/k8s_client.py). -/
def pythonMockLogs : String :=
  "\x7b\"status\": \"pass\", \"tests\": [\x7b\"name\": \"test_hello_world\", \"status\": \"pass\"\x7d]\x7d"

/-- Lines 176-181 of src/k8s_client.py: canned structured output keyed by
language (the `javascript` line produces the same string as `python`). -/
def mock_logs_for_language (language : String) : String :=
  if language = "python" then pythonMockLogs
  else if language = "javascript" then pythonMockLogs
  else "\x7b\"status\": \"pass\", \"message\": \"All tests passed\"\x7d"

/-- `K8sClient.create_config_map` in mock mode (lines 270-274): appends a
fresh uuid-derived suffix to the requested name; the suffix is a
parameter here. -/
def k8s_create_config_map_mock (suffix name : String) (_data : List (String × String)) :
    Except String String :=
  Except.ok (name ++ "-" ++ suffix)

/-- `K8sClient.create_job` in mock mode (lines 104-109): same naming
scheme, its own fresh uuid suffix. -/
def k8s_create_job_mock (suffix name _image : String) (_command : List String)
    (_configMapRef : String) (_timeout : Nat) : Except String String :=
  Except.ok (name ++ "-" ++ suffix)

/-- `K8sClient.wait_for_job_completion` in mock mode (lines 169-185):
always succeeds with the canned logs for the language read off the job
name. -/
def k8s_wait_for_job_completion_mock (job_name : String) : Except String (Bool × String) :=
  Except.ok (true, mock_logs_for_language (job_name_language job_name))

/-- `K8sClient.delete_config_map` in mock mode (lines 295-297). -/
def k8s_delete_config_map_mock (_name : String) : Except String Unit :=
  Except.ok ()

/-- The mock-mode `K8sClient` as a backend, with the two per-call uuid
suffixes supplied as parameters. -/
def mockBackend (cm_suffix job_suffix : String) : Backend where
  create_config_map := k8s_create_config_map_mock cm_suffix
  create_job := k8s_create_job_mock job_suffix
  wait_for_job_completion := k8s_wait_for_job_completion_mock
  delete_config_map := k8s_delete_config_map_mock

/-- One poll of the live loop in `wait_for_job_completion`
(lines 190-217 of src/k8s_client.py): the job-status counters read, or an
`ApiException` raised by the status read. -/
inductive PollObs where
  | counts (succeeded failed : Option Nat)
  | apiError (msg : String)
deriving Repr, DecidableEq

/-- Python `x is not None and x > 0` for a status counter. -/
def posCount : Option Nat → Bool
  | some n => decide (n > 0)
  | none => false

/-- A poll observation that is not terminal and does not raise. -/
def nonTerminalPoll : PollObs → Bool
  | PollObs.counts s f => !posCount s && !posCount f
  | PollObs.apiError _ => false

/-- The live polling loop of `wait_for_job_completion` (lines 188-221 of
src/k8s_client.py).  The list holds the observations made before the
deadline elapses; exhausting it is the deadline elapsing, which returns
the fixed timeout diagnostic instead of raising.  `get_logs` stands for
the pod logs fetched on a terminal observation. -/
def wait_for_job_completion_live (get_logs : String) : List PollObs → Except String (Bool × String)
  | [] => Except.ok (false, "Timeout waiting for job completion")
  | PollObs.apiError e :: _ => Except.error e
  | PollObs.counts s f :: rest =>
    if posCount s then Except.ok (true, get_logs)
    else if posCount f then Except.ok (false, get_logs)
    else wait_for_job_completion_live get_logs rest

/-- `validate_test_config` (src/utils.py lines 7-36).  `config` ranges
over JSON documents; anything that is not a nonempty object fails the
generic check, and for `python` the keys `version` and one of
`test_file`/`test_files` are required. -/
def validate_test_config (config : Json) (language : String) : Bool :=
  match config with
  | Json.obj kvs =>
    if kvs.isEmpty then false
    else if language = "python" then
      if (kvs.lookup "version").isNone then false
      else if (kvs.lookup "test_file").isNone && (kvs.lookup "test_files").isNone then false
      else true
    else true
  | _ => false

/-- Predicate picking out the reclaim events of a trace. -/
def isReclaim : BEvent → Bool
  | BEvent.deleteConfigMap _ => true
  | _ => false

/-- Number of `delete_config_map` calls in a trace. -/
def reclaimCount (evs : List BEvent) : Nat :=
  (evs.filter isReclaim).length

/-- A valid python test configuration used by concrete runs. -/
def sampleConfig : Json :=
  Json.obj [("version", Json.num "1"), ("test_files", Json.arr [Json.str "t.py"])]

/-- Backend whose job launch raises, staging succeeding (fixture for the
reclaim claims). -/
def launchFailBackend : Backend where
  create_config_map := fun _ _ => Except.ok "cm-0001"
  create_job := fun _ _ _ _ _ => Except.error "launch rejected"
  wait_for_job_completion := fun _ => Except.ok (true, "")
  delete_config_map := fun _ => Except.ok ()

/-- Backend succeeding end to end with prescribed logs (fixture). -/
def okBackend (logs : String) : Backend where
  create_config_map := fun _ _ => Except.ok "cm-0001"
  create_job := fun _ _ _ _ _ => Except.ok "job-0001"
  wait_for_job_completion := fun _ => Except.ok (true, logs)
  delete_config_map := fun _ => Except.ok ()

/-- Backend whose await step runs the live polling loop against a single
non-terminal observation, so the deadline elapses (fixture). -/
def timeoutBackend : Backend where
  create_config_map := fun _ _ => Except.ok "cm-0001"
  create_job := fun _ _ _ _ _ => Except.ok "job-0001"
  wait_for_job_completion := fun _ =>
    wait_for_job_completion_live "" [PollObs.counts none none]
  delete_config_map := fun _ => Except.ok ()

/-- Logs whose embedded structured result carries a status outside the
three-value verdict taxonomy (fixture for claim C5). -/
def bogusStatusLogs : String := "\x7b\"status\": \"bogus\"\x7d"

/-- Logs with a well-formed embedded object followed by trailing
whitespace (fixture for claim C10). -/
def trailingWsLogs : String := "\x7b\"status\": \"pass\"\x7d\n"

/-- Logs with a well-formed embedded object followed by trailing
non-whitespace text (fixture for the amended claim C10). -/
def trailingTextLogs : String := "\x7b\"status\": \"pass\"\x7d extra"

/-- Logs with an embedded failing structured result after a prefix of
plain text (fixture for claim C7). -/
def embeddedFailLogs : String :=
  "collected 1 item \x7b\"status\": \"fail\", \"tests\": [\x7b\"name\": \"t1\", \"status\": \"fail\"\x7d]\x7d"

theorem isNone_false_of_isSome {α : Type} {o : Option α} (h : o.isSome = true) :
    o.isNone = false := by
  cases o <;> simp_all

/-- The registry of src/config.py registers exactly `python`. -/
theorem supported_iff_python (language : String) :
    (SUPPORTED_LANGUAGES.lookup language).isSome = true ↔ language = "python" := by
  by_cases h : language = "python"
  · subst h
    simp [SUPPORTED_LANGUAGES, List.lookup]
  · have hb : (language == "python") = false := beq_eq_false_iff_ne.mpr h
    simp [SUPPORTED_LANGUAGES, List.lookup, hb, h]

/-- A polling loop that only sees non-terminal observations elapses its
deadline and returns the fixed timeout diagnostic. -/
theorem wait_live_timeout (get_logs : String) (polls : List PollObs)
    (h : ∀ p ∈ polls, nonTerminalPoll p = true) :
    wait_for_job_completion_live get_logs polls =
      Except.ok (false, "Timeout waiting for job completion") := by
  induction polls with
  | nil => rfl
  | cons p rest ih =>
    cases p with
    | apiError e =>
      have := h _ (List.mem_cons_self _ _)
      simp [nonTerminalPoll] at this
    | counts s f =>
      have hp := h _ (List.mem_cons_self _ _)
      simp only [nonTerminalPoll, Bool.and_eq_true, Bool.not_eq_true'] at hp
      simp only [wait_for_job_completion_live, hp.1, hp.2, if_false]
      exact ih (fun q hq => h q (List.mem_cons_of_mem _ hq))

/-- C4.  For every request whose language is not a key of
`SUPPORTED_LANGUAGES`, `run_tests` raises the `ValueError` before any
backend call: the call trace is empty, so zero `create_config_map` and
zero `create_job` calls occur and the backend state is untouched. -/
theorem unsupported_language_rejected_before_backend (B : Backend) (language : String)
    (read_code : Except String String) (test_config : Json) (run_id : String)
    (h : SUPPORTED_LANGUAGES.lookup language = none) :
    run_tests B language read_code test_config run_id =
      (Except.error ("Unsupported language: " ++ language), []) := by
  simp [run_tests, h]

theorem unsupported_language_rejected_before_backend_witness :
    run_tests (mockBackend "aaaaaaaa" "bbbbbbbb") "ruby" (Except.ok "code") sampleConfig "run00001" =
      (Except.error ("Unsupported language: " ++ "ruby"), []) :=
  unsupported_language_rejected_before_backend _ _ _ _ _ rfl

/-- C6.  `validate_test_config` returns `True` exactly when the
configuration is a non-empty object and, for language `python`, contains
`version` and at least one of `test_file`/`test_files`; other languages
only pass the non-empty check. -/
theorem validate_test_config_spec (config : Json) (language : String) :
    validate_test_config config language = true ↔
      ((∃ kvs, config = Json.obj kvs) ∧ config ≠ Json.obj [] ∧
        (language = "python" →
          (config.lookupKey "version").isSome = true ∧
            ((config.lookupKey "test_file").isSome = true ∨
             (config.lookupKey "test_files").isSome = true))) := by
  cases config with
  | obj kvs =>
    cases kvs with
    | nil => simp [validate_test_config]
    | cons p rest =>
      by_cases hl : language = "python"
      · subst hl
        cases h1 : List.lookup "version" (p :: rest) <;>
          cases h2 : List.lookup "test_file" (p :: rest) <;>
            cases h3 : List.lookup "test_files" (p :: rest) <;>
              simp only [validate_test_config, Json.lookupKey, h1, h2, h3] <;>
                simp
      · simp [validate_test_config, Json.lookupKey, hl]
  | null => simp [validate_test_config]
  | bool b => simp [validate_test_config]
  | num n => simp [validate_test_config]
  | str s => simp [validate_test_config]
  | arr elems => simp [validate_test_config]

/-- C2.  Whenever the await step is the live polling loop and every poll
before the deadline is non-terminal, `wait_for_job_completion` returns
`(False, "Timeout waiting for job completion")` and `run_tests` returns
a verdict with status `fail` (never `error`) carrying the fixed timeout
diagnostic as its raw output. -/
theorem timeout_yields_fail_verdict (B : Backend) (language code : String)
    (test_config : Json) (run_id cm jn get_logs : String) (polls : List PollObs)
    (hlang : (SUPPORTED_LANGUAGES.lookup language).isSome = true)
    (hcm : B.create_config_map (resourceName language run_id)
      (stagedData language code test_config) = Except.ok cm)
    (hjob : B.create_job (resourceName language run_id) (langConfig language).image
      (runCommandFor language) cm 120 = Except.ok jn)
    (hwait : B.wait_for_job_completion jn = wait_for_job_completion_live get_logs polls)
    (hpolls : ∀ p ∈ polls, nonTerminalPoll p = true) :
    (run_tests B language (Except.ok code) test_config run_id).1 =
      Except.ok (Json.obj [("status", Json.str "fail"),
        ("message", Json.str "Test execution failed"),
        ("raw_output", Json.str "Timeout waiting for job completion")]) := by
  have hw : B.wait_for_job_completion jn =
      Except.ok (false, "Timeout waiting for job completion") :=
    hwait.trans (wait_live_timeout _ _ hpolls)
  simp [run_tests, isNone_false_of_isSome hlang, hcm, hjob, hw, interpret_logs]

theorem timeout_yields_fail_verdict_witness :
    (run_tests timeoutBackend "python" (Except.ok "code") sampleConfig "run00001").1 =
      Except.ok (Json.obj [("status", Json.str "fail"),
        ("message", Json.str "Test execution failed"),
        ("raw_output", Json.str "Timeout waiting for job completion")]) :=
  timeout_yields_fail_verdict timeoutBackend "python" "code" sampleConfig "run00001"
    "cm-0001" "job-0001" "" [PollObs.counts none none]
    rfl rfl rfl rfl (by decide)

/-- C3.  With a supported language, `run_tests` always returns a verdict
(`Except.ok`) whatever the backend does, and when the code read, the
staging call, the launch call, or the await call is the first to raise,
the returned verdict has status `error` and embeds the exception
message. -/
theorem run_tests_absorbs_backend_exceptions (B : Backend) (language : String)
    (read_code : Except String String) (test_config : Json) (run_id : String)
    (hlang : (SUPPORTED_LANGUAGES.lookup language).isSome = true) :
    (∃ v, (run_tests B language read_code test_config run_id).1 = Except.ok v) ∧
    (∀ e, read_code = Except.error e →
      (run_tests B language read_code test_config run_id).1 = Except.ok (errVerdict e)) ∧
    (∀ code e, read_code = Except.ok code →
      B.create_config_map (resourceName language run_id) (stagedData language code test_config) =
        Except.error e →
      (run_tests B language read_code test_config run_id).1 = Except.ok (errVerdict e)) ∧
    (∀ code cm e, read_code = Except.ok code →
      B.create_config_map (resourceName language run_id) (stagedData language code test_config) =
        Except.ok cm →
      B.create_job (resourceName language run_id) (langConfig language).image
        (runCommandFor language) cm 120 = Except.error e →
      (run_tests B language read_code test_config run_id).1 = Except.ok (errVerdict e)) ∧
    (∀ code cm jn e, read_code = Except.ok code →
      B.create_config_map (resourceName language run_id) (stagedData language code test_config) =
        Except.ok cm →
      B.create_job (resourceName language run_id) (langConfig language).image
        (runCommandFor language) cm 120 = Except.ok jn →
      B.wait_for_job_completion jn = Except.error e →
      (run_tests B language read_code test_config run_id).1 = Except.ok (errVerdict e)) := by
  have hn := isNone_false_of_isSome hlang
  refine ⟨?_, ?_, ?_, ?_, ?_⟩
  · cases read_code with
    | error e => exact ⟨errVerdict e, by simp [run_tests, hn]⟩
    | ok code =>
      cases hcm : B.create_config_map (resourceName language run_id)
          (stagedData language code test_config) with
      | error e => exact ⟨errVerdict e, by simp [run_tests, hn, hcm]⟩
      | ok cm =>
        cases hjob : B.create_job (resourceName language run_id) (langConfig language).image
            (runCommandFor language) cm 120 with
        | error e => exact ⟨errVerdict e, by simp [run_tests, hn, hcm, hjob]⟩
        | ok jn =>
          cases hw : B.wait_for_job_completion jn with
          | error e => exact ⟨errVerdict e, by simp [run_tests, hn, hcm, hjob, hw]⟩
          | ok sl =>
            obtain ⟨s, logs⟩ := sl
            exact ⟨interpret_logs s logs, by simp [run_tests, hn, hcm, hjob, hw]⟩
  · intro e he
    subst he
    simp [run_tests, hn]
  · intro code e hrc hcm
    subst hrc
    simp [run_tests, hn, hcm]
  · intro code cm e hrc hcm hjob
    subst hrc
    simp [run_tests, hn, hcm, hjob]
  · intro code cm jn e hrc hcm hjob hw
    subst hrc
    simp [run_tests, hn, hcm, hjob, hw]

theorem run_tests_absorbs_backend_exceptions_witness :
    (run_tests launchFailBackend "python" (Except.ok "code") sampleConfig "run00002").1 =
      Except.ok (errVerdict "launch rejected") :=
  (run_tests_absorbs_backend_exceptions launchFailBackend "python" (Except.ok "code")
      sampleConfig "run00002" rfl).2.2.2.1 "code" "cm-0001" "launch rejected" rfl rfl rfl

/-- C1 counterexample.  A run in which staging succeeds but the launch
raises: `run_tests` returns the error verdict without ever calling
`delete_config_map` — the reclaim count of the trace is 0, refuting
"reclaim is invoked exactly once whenever staging succeeded, regardless
of which downstream stage fails". -/
theorem reclaim_skipped_on_launch_raise :
    launchFailBackend.create_config_map (resourceName "python" "run00003")
        (stagedData "python" "code" sampleConfig) = Except.ok "cm-0001" ∧
    (run_tests launchFailBackend "python" (Except.ok "code") sampleConfig "run00003").1 =
      Except.ok (errVerdict "launch rejected") ∧
    reclaimCount (run_tests launchFailBackend "python" (Except.ok "code") sampleConfig "run00003").2 = 0 :=
  ⟨rfl, rfl, rfl⟩

/-- C1 (amended).  When staging succeeds, the bundle is reclaimed exactly
once — with `delete_config_map` applied to the staged ConfigMap's name —
provided the launch and await calls return without raising (in
particular on await reporting failure and on any interpret-stage parse
failure, which is handled after cleanup).  When the launch or the await
call raises, the source skips reclaim entirely: the reclaim count is 0. -/
theorem reclaim_exactly_once_when_await_returns (B : Backend) (language code : String)
    (test_config : Json) (run_id cm : String)
    (hlang : (SUPPORTED_LANGUAGES.lookup language).isSome = true)
    (hcm : B.create_config_map (resourceName language run_id)
      (stagedData language code test_config) = Except.ok cm) :
    (∀ jn s logs, B.create_job (resourceName language run_id) (langConfig language).image
        (runCommandFor language) cm 120 = Except.ok jn →
      B.wait_for_job_completion jn = Except.ok (s, logs) →
      (run_tests B language (Except.ok code) test_config run_id).2 =
        [BEvent.createConfigMap (resourceName language run_id) (stagedData language code test_config),
         BEvent.createJob (resourceName language run_id) (langConfig language).image
           (runCommandFor language) cm 120,
         BEvent.waitForJob jn,
         BEvent.deleteConfigMap cm] ∧
      reclaimCount (run_tests B language (Except.ok code) test_config run_id).2 = 1) ∧
    (∀ e, B.create_job (resourceName language run_id) (langConfig language).image
        (runCommandFor language) cm 120 = Except.error e →
      reclaimCount (run_tests B language (Except.ok code) test_config run_id).2 = 0) ∧
    (∀ jn e, B.create_job (resourceName language run_id) (langConfig language).image
        (runCommandFor language) cm 120 = Except.ok jn →
      B.wait_for_job_completion jn = Except.error e →
      reclaimCount (run_tests B language (Except.ok code) test_config run_id).2 = 0) := by
  have hn := isNone_false_of_isSome hlang
  refine ⟨?_, ?_, ?_⟩
  · intro jn s logs hjob hw
    constructor
    · simp [run_tests, hn, hcm, hjob, hw]
    · simp [run_tests, hn, hcm, hjob, hw, reclaimCount, isReclaim]
  · intro e hjob
    simp [run_tests, hn, hcm, hjob, reclaimCount, isReclaim]
  · intro jn e hjob hw
    simp [run_tests, hn, hcm, hjob, hw, reclaimCount, isReclaim]

theorem reclaim_exactly_once_when_await_returns_witness :
    reclaimCount (run_tests (okBackend "") "python" (Except.ok "code") sampleConfig "run00004").2 = 1 :=
  ((reclaim_exactly_once_when_await_returns (okBackend "") "python" "code" sampleConfig
      "run00004" "cm-0001" rfl rfl).1 "job-0001" true "" rfl rfl).2

/-- C7.  For a Succeeded run whose logs contain the marker, if the text
from the marker to the end of the logs parses as a JSON document `r`,
`run_tests` returns exactly `r` — the embedded result's status and test
list pass through unchanged. -/
theorem embedded_result_round_trip (B : Backend) (language code : String)
    (test_config : Json) (run_id cm jn logs : String) (suf : List Char) (r : Json)
    (hlang : (SUPPORTED_LANGUAGES.lookup language).isSome = true)
    (hcm : B.create_config_map (resourceName language run_id)
      (stagedData language code test_config) = Except.ok cm)
    (hjob : B.create_job (resourceName language run_id) (langConfig language).image
      (runCommandFor language) cm 120 = Except.ok jn)
    (hwait : B.wait_for_job_completion jn = Except.ok (true, logs))
    (hsuf : suffixFromMarker marker logs.data = some suf)
    (hparse : json_loads (String.mk suf) = some r) :
    (run_tests B language (Except.ok code) test_config run_id).1 = Except.ok r := by
  simp [run_tests, isNone_false_of_isSome hlang, hcm, hjob, hwait, interpret_logs, hsuf, hparse]

theorem embedded_result_round_trip_witness :
    (run_tests (okBackend embeddedFailLogs) "python" (Except.ok "code") sampleConfig "run00008").1 =
      Except.ok (Json.obj [("status", Json.str "fail"),
        ("tests", Json.arr [Json.obj [("name", Json.str "t1"), ("status", Json.str "fail")]])]) :=
  embedded_result_round_trip (okBackend embeddedFailLogs) "python" "code" sampleConfig
    "run00008" "cm-0001" "job-0001" embeddedFailLogs
    ("\x7b\"status\": \"fail\", \"tests\": [\x7b\"name\": \"t1\", \"status\": \"fail\"\x7d]\x7d".data)
    (Json.obj [("status", Json.str "fail"),
      ("tests", Json.arr [Json.obj [("name", Json.str "t1"), ("status", Json.str "fail")]])])
    rfl rfl rfl rfl rfl rfl

/-- C9 counterexample.  A concrete mock-mode run with run id `abc12345`:
the ConfigMap actually created is named `python-test-abc12345-aaaaaaaa`
and the Job `python-test-abc12345-bbbbbbbb` — neither has the exact form
`{language}-test-{shortID}` for the request's short id (an extra
per-call uuid suffix is appended by `K8sClient`), and the two full names
do not coincide in their post-`test-` portion. -/
theorem resource_name_exact_form_cex :
    (run_tests (mockBackend "aaaaaaaa" "bbbbbbbb") "python" (Except.ok "code") sampleConfig "abc12345").2 =
      [BEvent.createConfigMap "python-test-abc12345" (stagedData "python" "code" sampleConfig),
       BEvent.createJob "python-test-abc12345" (langConfig "python").image
         (runCommandFor "python") "python-test-abc12345-aaaaaaaa" 120,
       BEvent.waitForJob "python-test-abc12345-bbbbbbbb",
       BEvent.deleteConfigMap "python-test-abc12345-aaaaaaaa"] ∧
    "python-test-abc12345-aaaaaaaa" ≠ resourceName "python" "abc12345" ∧
    "python-test-abc12345-bbbbbbbb" ≠ resourceName "python" "abc12345" ∧
    "python-test-abc12345-aaaaaaaa" ≠ "python-test-abc12345-bbbbbbbb" :=
  ⟨rfl, by decide, by decide, by decide⟩

/-- C9 (amended).  Both backend create calls receive the same name prefix,
exactly `{language}-test-{runID}` with the request-scoped short id; the
backend then appends its own fresh uuid suffix per call, so the created
ConfigMap and Job are named `{language}-test-{runID}-{suffix}` with
distinct per-resource suffixes (visible in the trace: the ConfigMap name
reappears in the reclaim event, the Job name in the await event). -/
theorem resource_names_share_prefix_distinct_suffixes (cm_suffix job_suffix code run_id language : String)
    (test_config : Json)
    (hlang : (SUPPORTED_LANGUAGES.lookup language).isSome = true) :
    (run_tests (mockBackend cm_suffix job_suffix) language (Except.ok code) test_config run_id).2 =
      [BEvent.createConfigMap (resourceName language run_id) (stagedData language code test_config),
       BEvent.createJob (resourceName language run_id) (langConfig language).image
         (runCommandFor language) (resourceName language run_id ++ "-" ++ cm_suffix) 120,
       BEvent.waitForJob (resourceName language run_id ++ "-" ++ job_suffix),
       BEvent.deleteConfigMap (resourceName language run_id ++ "-" ++ cm_suffix)] := by
  simp [run_tests, isNone_false_of_isSome hlang, mockBackend, k8s_create_config_map_mock,
    k8s_create_job_mock, k8s_wait_for_job_completion_mock]

theorem resource_names_share_prefix_distinct_suffixes_witness :
    (run_tests (mockBackend "cccccccc" "ddddddidd") "python" (Except.ok "code") sampleConfig "run00009").2 =
      [BEvent.createConfigMap (resourceName "python" "run00009") (stagedData "python" "code" sampleConfig),
       BEvent.createJob (resourceName "python" "run00009") (langConfig "python").image
         (runCommandFor "python") (resourceName "python" "run00009" ++ "-" ++ "cccccccc") 120,
       BEvent.waitForJob (resourceName "python" "run00009" ++ "-" ++ "ddddddidd"),
       BEvent.deleteConfigMap (resourceName "python" "run00009" ++ "-" ++ "cccccccc")] :=
  resource_names_share_prefix_distinct_suffixes "cccccccc" "ddddddidd" "code" "run00009"
    "python" sampleConfig rfl

theorem lookup_insertKV_self (k : String) (v : Json) (l : List (String × Json)) :
    (insertKV k v l).lookup k = some v := by
  induction l with
  | nil => simp [insertKV, List.lookup]
  | cons p rest ih =>
    obtain ⟨k0, v0⟩ := p
    by_cases h : k0 = k
    · subst h
      simp [insertKV, List.lookup]
    · have hb : (k == k0) = false := beq_eq_false_iff_ne.mpr (Ne.symm h)
      simp [insertKV, h, List.lookup, hb, ih]

theorem lookup_insertKV_isSome (k k2 : String) (v : Json) (l : List (String × Json))
    (h : (l.lookup k2).isSome = true) : ((insertKV k v l).lookup k2).isSome = true := by
  induction l with
  | nil => simp [List.lookup] at h
  | cons p rest ih =>
    obtain ⟨k0, v0⟩ := p
    by_cases hk : k0 = k
    · subst hk
      by_cases h2 : k2 = k0
      · subst h2
        simp [insertKV, List.lookup]
      · have hb : (k2 == k0) = false := beq_eq_false_iff_ne.mpr h2
        simp only [insertKV, if_pos rfl, List.lookup, hb] at h ⊢
        exact h
    · by_cases h2 : k2 = k0
      · subst h2
        simp [insertKV, hk, List.lookup]
      · have hb : (k2 == k0) = false := beq_eq_false_iff_ne.mpr h2
        simp only [insertKV, if_neg hk, List.lookup, hb] at h ⊢
        exact ih h

/-- A successful `parseObjItems` run produces an object whose keys include
every key already present in the accumulator. -/
theorem parseObjItems_obj_keys (fuel : Nat) :
    ∀ (acc : List (String × Json)) (cs : List Char) (v : Json) (rest : List Char),
      parseObjItems fuel acc cs = some (v, rest) →
      ∃ kvs, v = Json.obj kvs ∧
        ∀ k, (acc.lookup k).isSome = true → (kvs.lookup k).isSome = true := by
  induction fuel with
  | zero =>
    intro acc cs v rest h
    simp [parseObjItems] at h
  | succ fuel ih =>
    intro acc cs v rest h
    simp only [parseObjItems] at h
    split at h
    case h_2 => exact absurd h (by simp)
    case h_1 cs1 heq =>
      split at h
      case h_1 => exact absurd h (by simp)
      case h_2 k cs2 hsb =>
        split at h
        case h_2 => exact absurd h (by simp)
        case h_1 cs3 hws =>
          split at h
          case h_1 => exact absurd h (by simp)
          case h_2 v1 cs4 hpv =>
            split at h
            case h_2 => exact absurd h (by simp)
            case h_1 c5 cs5 hws2 =>
              by_cases hc : c5 = ','
              · rw [if_pos hc] at h
                obtain ⟨kvs, hv, hmono⟩ := ih (insertKV k v1 acc) cs5 v rest h
                exact ⟨kvs, hv, fun k2 hk2 => hmono k2 (lookup_insertKV_isSome k k2 v1 acc hk2)⟩
              · rw [if_neg hc] at h
                by_cases hb : c5 = rbraceC
                · rw [if_pos hb] at h
                  injection h with h2
                  injection h2 with hv hrest
                  refine ⟨insertKV k v1 acc, hv.symm, ?_⟩
                  exact fun k2 hk2 => lookup_insertKV_isSome k k2 v1 acc hk2
                · rw [if_neg hb] at h
                  exact absurd h (by simp)

/-- Parsing a document that starts with the ten marker characters
left-brace `"status":` yields an object carrying a `status` key. -/
theorem parseVal_marker_obj_status (fuel : Nat) (t rest : List Char) (v : Json)
    (h : parseVal fuel (marker ++ t) = some (v, rest)) :
    ∃ kvs, v = Json.obj kvs ∧ (kvs.lookup "status").isSome = true := by
  cases fuel with
  | zero => simp [parseVal] at h
  | succ f =>
    cases f with
    | zero =>
      have hz : parseVal 1 (marker ++ t) = none := rfl
      rw [hz] at h
      exact absurd h (by simp)
    | succ f2 =>
      rw [show parseVal (Nat.succ (Nat.succ f2)) (marker ++ t) =
            parseObjItems (Nat.succ f2) []
              ('"' :: 's' :: 't' :: 'a' :: 't' :: 'u' :: 's' :: '"' :: ':' :: t) from rfl] at h
      simp only [parseObjItems] at h
      split at h
      case h_2 => exact absurd h (by simp)
      case h_1 cs1 heq1 =>
        rw [show skipWs ('"' :: 's' :: 't' :: 'a' :: 't' :: 'u' :: 's' :: '"' :: ':' :: t) =
              '"' :: 's' :: 't' :: 'a' :: 't' :: 'u' :: 's' :: '"' :: ':' :: t from rfl] at heq1
        injection heq1 with heqc heqcs
        subst heqcs
        split at h
        case h_1 => exact absurd h (by simp)
        case h_2 k cs2 heq2 =>
          rw [show parseStringBody ('s' :: 't' :: 'a' :: 't' :: 'u' :: 's' :: '"' :: ':' :: t) =
                some ("status", ':' :: t) from rfl] at heq2
          injection heq2 with heqp
          injection heqp with heqk heqcs2
          subst heqk
          subst heqcs2
          split at h
          case h_2 => exact absurd h (by simp)
          case h_1 cs3 heq3 =>
            rw [show skipWs (':' :: t) = ':' :: t from rfl] at heq3
            injection heq3 with heqc3 heqcs3
            subst heqcs3
            split at h
            case h_1 => exact absurd h (by simp)
            case h_2 v1 cs4 hpv =>
              split at h
              case h_2 => exact absurd h (by simp)
              case h_1 c5 cs5 hws =>
                by_cases hc : c5 = ','
                · rw [if_pos hc] at h
                  obtain ⟨kvs, hv, hmono⟩ :=
                    parseObjItems_obj_keys f2 (insertKV "status" v1 []) cs5 v rest h
                  refine ⟨kvs, hv, hmono "status" ?_⟩
                  rw [lookup_insertKV_self]
                  rfl
                · rw [if_neg hc] at h
                  by_cases hb : c5 = rbraceC
                  · rw [if_pos hb] at h
                    injection h with h2
                    injection h2 with hv hrest
                    refine ⟨insertKV "status" v1 [], hv.symm, ?_⟩
                    rw [lookup_insertKV_self]
                    rfl
                  · rw [if_neg hb] at h
                    exact absurd h (by simp)

/-- `suffixFromMarker` returns a suffix that starts with the pattern. -/
theorem suffixFromMarker_isPrefix (pat l suf : List Char)
    (h : suffixFromMarker pat l = some suf) : pat.isPrefixOf suf = true := by
  induction l with
  | nil =>
    by_cases hp : pat.isEmpty
    · simp only [suffixFromMarker, hp, if_pos] at h
      injection h with h2
      subst h2
      cases pat with
      | nil => rfl
      | cons c cs => simp [List.isEmpty] at hp
    · simp [suffixFromMarker, hp] at h
  | cons c cs ih =>
    by_cases hp : pat.isPrefixOf (c :: cs)
    · simp only [suffixFromMarker, hp, if_pos] at h
      injection h with h2
      subst h2
      exact hp
    · simp only [suffixFromMarker, hp, if_neg] at h
      exact ih h

/-- A list containing a non-whitespace character does not skip to empty. -/
theorem skipWs_not_isEmpty (l : List Char) (c : Char) (hc : c ∈ l) (hw : isJsonWs c = false) :
    (skipWs l).isEmpty = false := by
  induction l with
  | nil => simp at hc
  | cons d ds ih =>
    by_cases hd : isJsonWs d = true
    · rcases List.mem_cons.mp hc with rfl | hm
      · rw [hw] at hd
        exact absurd hd (by simp)
      · simp only [skipWs, hd, if_pos]
        exact ih hm
    · have hdf : isJsonWs d = false := by
        cases hdd : isJsonWs d
        · rfl
        · exact absurd hdd hd
      simp [skipWs, hdf]

theorem isPrefixOf_exists_append (l1 l2 : List Char) (h : l1.isPrefixOf l2 = true) :
    ∃ t, l2 = l1 ++ t := by
  induction l1 generalizing l2 with
  | nil => exact ⟨l2, rfl⟩
  | cons c cs ih =>
    cases l2 with
    | nil => simp [List.isPrefixOf] at h
    | cons d ds =>
      simp only [List.isPrefixOf, Bool.and_eq_true, beq_iff_eq] at h
      obtain ⟨h1, h2⟩ := h
      obtain ⟨t, ht⟩ := ih ds h2
      exact ⟨t, by rw [ht, h1]; rfl⟩

/-- A document accepted by `json_loads` whose text starts with the marker
is an object with a `status` key. -/
theorem json_loads_marker_status (s : String) (v : Json)
    (hpre : marker.isPrefixOf s.data = true) (h : json_loads s = some v) :
    ∃ kvs, v = Json.obj kvs ∧ (kvs.lookup "status").isSome = true := by
  obtain ⟨t, ht⟩ := isPrefixOf_exists_append marker s.data hpre
  unfold json_loads at h
  rw [ht] at h
  cases hpv : parseVal ((marker ++ t).length + 2) (marker ++ t) with
  | none => rw [hpv] at h; simp at h
  | some pr =>
    obtain ⟨v0, rest⟩ := pr
    rw [hpv] at h
    dsimp only at h
    split at h
    · injection h with h2
      subst h2
      exact parseVal_marker_obj_status _ t rest v0 hpv
    · exact absurd h (by simp)

/-- C5 counterexample.  A Succeeded run whose logs embed the structured
result `x7b"status": "bogus"x7d`: `run_tests` returns that object
verbatim, so the verdict's `status` is the string `bogus`, which is none
of `pass`/`fail`/`error` — refuting "the status value is one of exactly
pass, fail, error". -/
theorem verdict_status_outside_taxonomy_cex :
    (run_tests (okBackend bogusStatusLogs) "python" (Except.ok "code") sampleConfig "run00006").1 =
      Except.ok (Json.obj [("status", Json.str "bogus")]) ∧
    ("bogus" ≠ "pass" ∧ "bogus" ≠ "fail" ∧ "bogus" ≠ "error") :=
  ⟨rfl, by decide⟩

/-- C5 (amended).  Every verdict `run_tests` returns is an object with a
`status` key, and its status value is `pass`, `fail` or `error` on every
branch except the embedded-result pass-through, where the verdict is the
`json_loads` of the marker-to-end substring of the logs and its status
value is whatever the embedded result carried. -/
theorem verdict_status_key_always_present (B : Backend) (language : String)
    (read_code : Except String String) (test_config : Json) (run_id : String) (v : Json)
    (hres : (run_tests B language read_code test_config run_id).1 = Except.ok v) :
    ∃ kvs, v = Json.obj kvs ∧ (kvs.lookup "status").isSome = true ∧
      (kvs.lookup "status" = some (Json.str "pass") ∨
       kvs.lookup "status" = some (Json.str "fail") ∨
       kvs.lookup "status" = some (Json.str "error") ∨
       ∃ s, marker.isPrefixOf s.data = true ∧ json_loads s = some v) := by
  by_cases hn : (SUPPORTED_LANGUAGES.lookup language).isNone = true
  · simp [run_tests, hn] at hres
  · have hn2 : (SUPPORTED_LANGUAGES.lookup language).isNone = false := by
      cases hx : (SUPPORTED_LANGUAGES.lookup language).isNone
      · rfl
      · exact absurd hx hn
    cases read_code with
    | error e =>
      simp only [run_tests, hn2, Bool.false_eq_true, if_false] at hres
      injection hres with hres2
      subst hres2
      exact ⟨_, rfl, by simp [errVerdict, List.lookup],
        Or.inr (Or.inr (Or.inl (by simp [errVerdict, List.lookup])))⟩
    | ok code =>
      cases hcm : B.create_config_map (resourceName language run_id)
          (stagedData language code test_config) with
      | error e =>
        simp only [run_tests, hn2, Bool.false_eq_true, if_false, hcm] at hres
        injection hres with hres2
        subst hres2
        exact ⟨_, rfl, by simp [errVerdict, List.lookup],
          Or.inr (Or.inr (Or.inl (by simp [errVerdict, List.lookup])))⟩
      | ok cm =>
        cases hjob : B.create_job (resourceName language run_id) (langConfig language).image
            (runCommandFor language) cm 120 with
        | error e =>
          simp only [run_tests, hn2, Bool.false_eq_true, if_false, hcm, hjob] at hres
          injection hres with hres2
          subst hres2
          exact ⟨_, rfl, by simp [errVerdict, List.lookup],
            Or.inr (Or.inr (Or.inl (by simp [errVerdict, List.lookup])))⟩
        | ok jn =>
          cases hw : B.wait_for_job_completion jn with
          | error e =>
            simp only [run_tests, hn2, Bool.false_eq_true, if_false, hcm, hjob, hw] at hres
            injection hres with hres2
            subst hres2
            exact ⟨_, rfl, by simp [errVerdict, List.lookup],
              Or.inr (Or.inr (Or.inl (by simp [errVerdict, List.lookup])))⟩
          | ok sl =>
            obtain ⟨s, logs⟩ := sl
            simp only [run_tests, hn2, Bool.false_eq_true, if_false, hcm, hjob, hw] at hres
            injection hres with hres2
            cases s with
            | false =>
              rw [show interpret_logs false logs =
                    Json.obj [("status", Json.str "fail"),
                      ("message", Json.str "Test execution failed"),
                      ("raw_output", Json.str logs)] from rfl] at hres2
              subst hres2
              exact ⟨_, rfl, by simp [List.lookup],
                Or.inr (Or.inl (by simp [List.lookup]))⟩
            | true =>
              rw [show interpret_logs true logs =
                    (match suffixFromMarker marker logs.data with
                     | some suf =>
                       match json_loads (String.mk suf) with
                       | some v => v
                       | none => parse_error_verdict logs
                     | none =>
                       Json.obj [("status", Json.str "pass"),
                         ("message", Json.str "Tests passed but no structured output found"),
                         ("raw_output", Json.str logs)]) from rfl] at hres2
              cases hsuf : suffixFromMarker marker logs.data with
              | none =>
                rw [hsuf] at hres2
                dsimp only at hres2
                subst hres2
                exact ⟨_, rfl, by simp [List.lookup], Or.inl (by simp [List.lookup])⟩
              | some suf =>
                rw [hsuf] at hres2
                dsimp only at hres2
                cases hjl : json_loads (String.mk suf) with
                | none =>
                  rw [hjl] at hres2
                  dsimp only at hres2
                  subst hres2
                  exact ⟨_, rfl, by simp [parse_error_verdict, List.lookup],
                    Or.inr (Or.inr (Or.inl (by simp [parse_error_verdict, List.lookup])))⟩
                | some r =>
                  rw [hjl] at hres2
                  dsimp only at hres2
                  subst hres2
                  have hpre : marker.isPrefixOf (String.mk suf).data = true :=
                    suffixFromMarker_isPrefix marker logs.data suf hsuf
                  obtain ⟨kvs, hv, hk⟩ := json_loads_marker_status (String.mk suf) r hpre hjl
                  exact ⟨kvs, hv, hk, Or.inr (Or.inr (Or.inr ⟨String.mk suf, hpre, hjl⟩))⟩

theorem verdict_status_key_always_present_witness :
    ∃ kvs, Json.obj [("status", Json.str "bogus")] = Json.obj kvs ∧
      (kvs.lookup "status").isSome = true ∧
      (kvs.lookup "status" = some (Json.str "pass") ∨
       kvs.lookup "status" = some (Json.str "fail") ∨
       kvs.lookup "status" = some (Json.str "error") ∨
       ∃ s, marker.isPrefixOf s.data = true ∧
         json_loads s = some (Json.obj [("status", Json.str "bogus")])) :=
  verdict_status_key_always_present (okBackend bogusStatusLogs) "python" (Except.ok "code")
    sampleConfig "run00010" (Json.obj [("status", Json.str "bogus")]) rfl

/-- C10 counterexample.  Logs whose embedded object is followed only by a
newline: Python's `json.loads` tolerates trailing whitespace, so the
marker-to-end substring still parses and the embedded result is passed
through — the verdict is the embedded `status: pass`, not `error`,
although there is additional text after the object. -/
theorem trailing_whitespace_passthrough_cex :
    parseVal (trailingWsLogs.data.length + 2) trailingWsLogs.data =
      some (Json.obj [("status", Json.str "pass")], ['\n']) ∧
    (run_tests (okBackend trailingWsLogs) "python" (Except.ok "code") sampleConfig "run00007").1 =
      Except.ok (Json.obj [("status", Json.str "pass")]) ∧
    "pass" ≠ "error" :=
  ⟨rfl, rfl, by decide⟩

/-- C10 (amended).  For a Succeeded run whose logs contain the marker,
when the marker-to-end substring consists of a well-formed JSON document
followed by leftover text containing at least one non-whitespace
character, the parse of the whole substring fails and `run_tests`
returns the parse-error verdict: status `error` with the raw output
preserved.  (Trailing whitespace alone is tolerated by `json.loads`, see
the counterexample.) -/
theorem trailing_text_parse_error (B : Backend) (language code : String) (test_config : Json)
    (run_id cm jn logs : String) (suf rest : List Char) (v : Json) (c : Char)
    (hlang : (SUPPORTED_LANGUAGES.lookup language).isSome = true)
    (hcm : B.create_config_map (resourceName language run_id)
      (stagedData language code test_config) = Except.ok cm)
    (hjob : B.create_job (resourceName language run_id) (langConfig language).image
      (runCommandFor language) cm 120 = Except.ok jn)
    (hwait : B.wait_for_job_completion jn = Except.ok (true, logs))
    (hsuf : suffixFromMarker marker logs.data = some suf)
    (hpre_parse : parseVal (suf.length + 2) suf = some (v, rest))
    (hc : c ∈ rest) (hcw : isJsonWs c = false) :
    (run_tests B language (Except.ok code) test_config run_id).1 =
      Except.ok (parse_error_verdict logs) := by
  have hjl : json_loads (String.mk suf) = none := by
    unfold json_loads
    rw [show (String.mk suf).data = suf from rfl]
    rw [hpre_parse]
    dsimp only
    rw [skipWs_not_isEmpty rest c hc hcw]
    simp
  simp [run_tests, isNone_false_of_isSome hlang, hcm, hjob, hwait, interpret_logs, hsuf, hjl]

theorem trailing_text_parse_error_witness :
    (run_tests (okBackend trailingTextLogs) "python" (Except.ok "code") sampleConfig "run00011").1 =
      Except.ok (parse_error_verdict trailingTextLogs) :=
  trailing_text_parse_error (okBackend trailingTextLogs) "python" "code" sampleConfig
    "run00011" "cm-0001" "job-0001" trailingTextLogs
    trailingTextLogs.data (' ' :: 'e' :: 'x' :: 't' :: 'r' :: 'a' :: [])
    (Json.obj [("status", Json.str "pass")]) 'e'
    rfl rfl rfl rfl rfl rfl (by decide) rfl

theorem containsDash_append (a b : List Char) :
    containsDash (a ++ b) = (containsDash a || containsDash b) := by
  induction a with
  | nil => simp [containsDash]
  | cons c cs ih => simp [containsDash, ih, Bool.or_assoc]

theorem takeUntilDash_append (l m : List Char) (h : containsDash l = true) :
    takeUntilDash (l ++ m) = takeUntilDash l := by
  induction l with
  | nil => simp [containsDash] at h
  | cons c cs ih =>
    by_cases hc : c = '-'
    · simp [takeUntilDash, hc]
    · have hcs : containsDash cs = true := by
        simp only [containsDash, Bool.or_eq_true] at h
        rcases h with h | h
        · exact absurd (by simpa using h) hc
        · exact h
      simp [takeUntilDash, hc, ih hcs]

/-- The mock backend's language inference recovers `python` from any job
name generated for a python run, whatever the run id and uuid suffix. -/
theorem job_name_language_python (run_id s : String) :
    job_name_language (resourceName "python" run_id ++ "-" ++ s) = "python" := by
  have hdata : (resourceName "python" run_id ++ "-" ++ s).data =
      "python-".data ++ ("test-" ++ run_id ++ "-" ++ s).data := by
    simp [resourceName, String.data_append]
  rw [job_name_language, hdata, containsDash_append,
    show containsDash "python-".data = true from rfl, Bool.true_or,
    takeUntilDash_append "python-".data _ rfl]
  rfl

/-- C8.  In mock mode the await step always reports success with the
canned structured output for the language inferred from the job name,
and for every supported language (the registry holds exactly `python`)
and valid configuration, `run_tests` returns — without raising — the
verdict `status: pass` with the canned `test_hello_world` test list. -/
theorem mock_mode_python_pass_verdict (cm_suffix job_suffix code run_id language : String)
    (test_config : Json)
    (hlang : (SUPPORTED_LANGUAGES.lookup language).isSome = true)
    (hvalid : validate_test_config test_config language = true) :
    (run_tests (mockBackend cm_suffix job_suffix) language (Except.ok code) test_config run_id).1 =
      Except.ok (Json.obj [("status", Json.str "pass"),
        ("tests", Json.arr [Json.obj [("name", Json.str "test_hello_world"),
          ("status", Json.str "pass")]])]) := by
  have hl : language = "python" := (supported_iff_python language).mp hlang
  subst hl
  have hw : (mockBackend cm_suffix job_suffix).wait_for_job_completion
      (resourceName "python" run_id ++ "-" ++ job_suffix) = Except.ok (true, pythonMockLogs) := by
    show k8s_wait_for_job_completion_mock _ = _
    rw [k8s_wait_for_job_completion_mock, job_name_language_python]
    rfl
  have hcm : (mockBackend cm_suffix job_suffix).create_config_map (resourceName "python" run_id)
      (stagedData "python" code test_config) =
      Except.ok (resourceName "python" run_id ++ "-" ++ cm_suffix) := rfl
  have hjob : (mockBackend cm_suffix job_suffix).create_job (resourceName "python" run_id)
      (langConfig "python").image (runCommandFor "python")
      (resourceName "python" run_id ++ "-" ++ cm_suffix) 120 =
      Except.ok (resourceName "python" run_id ++ "-" ++ job_suffix) := rfl
  simp only [run_tests, show (SUPPORTED_LANGUAGES.lookup "python").isNone = false from rfl,
    Bool.false_eq_true, if_false, hcm, hjob, hw]
  rfl

theorem mock_mode_python_pass_verdict_witness :
    (run_tests (mockBackend "11111111" "22222222") "python" (Except.ok "code") sampleConfig "run00005").1 =
      Except.ok (Json.obj [("status", Json.str "pass"),
        ("tests", Json.arr [Json.obj [("name", Json.str "test_hello_world"),
          ("status", Json.str "pass")]])]) :=
  mock_mode_python_pass_verdict "11111111" "22222222" "code" "run00005" "python" sampleConfig rfl rfl
